import Mathlib

/-!
Verification of the banking-support agent core of `majlis-contact-center`.

The development shallowly embeds the agent orchestration graph
(`backend/app/agents/banking_agent/graphbuilder.py`), the state and message
schemas (`state.py`), the Summarizer and Tool-Gateway contracts stated in
`prompts.py` and the design document, and the chat route validation
(`backend/app/routes/chat.py`), and proves the stated properties about them.
-/

namespace Majlis

/-- The nodes of the LangGraph state machine built by
`BankingAgentGraphBuilder.build_graph` (graphbuilder.py), plus the
framework sentinels START and END. -/
inductive GNode where
  | START
  | summarize_conversation_messages
  | answer_user_query
  | tools
  | END
  deriving DecidableEq, Repr, Fintype

/-- The edge set of the compiled graph, exactly as registered in
`build_graph` (graphbuilder.py lines 34-46): two unconditional edges from
START and the summarize node, the two possible targets of the conditional
edge out of `answer_user_query` (path map `{"tools": "tools", END: END}`),
and the unconditional edge `tools -> answer_user_query`. -/
def graphEdges : List (GNode × GNode) :=
  [ (GNode.START, GNode.summarize_conversation_messages)
  , (GNode.summarize_conversation_messages, GNode.answer_user_query)
  , (GNode.answer_user_query, GNode.tools)
  , (GNode.answer_user_query, GNode.END)
  , (GNode.tools, GNode.answer_user_query) ]

/-- Predicate `isEdge a b`: holds when the compiled graph has an edge from `a` to `b`. -/
def isEdge (a b : GNode) : Bool := graphEdges.contains (a, b)

/-- A structured tool-call request emitted by the model
(the `tool_calls` attribute of an AI message). -/
structure ToolCall where
  name : String
  args : String
  deriving DecidableEq, Repr

/-- A model turn output as seen by the router: content plus the list of
structured tool-call requests attached to it. -/
structure AgentMessage where
  content : String
  tool_calls : List ToolCall
  deriving DecidableEq, Repr

/-- The LangGraph function `tools_condition` as wired in `build_graph`: it inspects the
last element of the `messages` channel of the state; if that message carries one
or more tool calls it returns the label `"tools"`, otherwise the END label
`"__end__"`.  With no message present the library raises (modelled as
`none`). -/
def tools_condition (messages : List AgentMessage) : Option String :=
  match messages.getLast? with
  | some m => some (if 0 < m.tool_calls.length then "tools" else "__end__")
  | none => none

/-- The conditional edge out of `answer_user_query`: `tools_condition`
composed with the path map `{"tools": "tools", END: END}` passed to
`add_conditional_edges` (graphbuilder.py lines 38-45). -/
def answerRouting (messages : List AgentMessage) : Option GNode :=
  (tools_condition messages).bind fun label =>
    if label = "tools" then some GNode.tools
    else if label = "__end__" then some GNode.END
    else none

/-- A node sequence is a path of the compiled graph when every consecutive
pair of nodes is an edge. -/
def chainOk : List GNode → Bool
  | [] => true
  | [_] => true
  | a :: b :: rest => isEdge a b && chainOk (b :: rest)

/-- An execution of the graph: a path that begins at START and ends at END. -/
def isExecution (p : List GNode) : Prop :=
  chainOk p = true ∧ p.head? = some GNode.START ∧ p.getLast? = some GNode.END

lemma chainOk_tail {a : GNode} {rest : List GNode}
    (h : chainOk (a :: rest) = true) : chainOk rest = true := by
  cases rest with
  | nil => rfl
  | cons b t =>
    simp only [chainOk, Bool.and_eq_true] at h
    exact h.2

lemma chainOk_cons_cons {a b : GNode} {rest : List GNode}
    (h : chainOk (a :: b :: rest) = true) : isEdge a b = true := by
  simp only [chainOk, Bool.and_eq_true] at h
  exact h.1

/-- Successors of nodes other than START and the summarize node are again
nodes other than START and the summarize node: checked over the finite edge
list. -/
lemma edge_target_no_summarize :
    ∀ a b : GNode, a ≠ GNode.START → a ≠ GNode.summarize_conversation_messages →
      isEdge a b = true → b ≠ GNode.START ∧ b ≠ GNode.summarize_conversation_messages := by
  decide

/-- On a path of the graph whose head is neither START nor the summarize
node, neither START nor the summarize node ever occurs. -/
lemma no_summarize_on_path :
    ∀ p : List GNode, chainOk p = true →
      (∀ x, p.head? = some x → x ≠ GNode.START ∧ x ≠ GNode.summarize_conversation_messages) →
      GNode.START ∉ p ∧ GNode.summarize_conversation_messages ∉ p := by
  intro p
  induction p with
  | nil => intro _ _; simp
  | cons a rest ih =>
    intro hchain hhead
    have ha := hhead a rfl
    cases rest with
    | nil =>
      constructor <;> simp [Ne.symm ha.1, Ne.symm ha.2]
    | cons b t =>
      have hedge := chainOk_cons_cons hchain
      have hb := edge_target_no_summarize a b ha.1 ha.2 hedge
      have hrest := ih (chainOk_tail hchain) (by
        intro x hx
        simp only [List.head?] at hx
        cases hx
        exact hb)
      refine ⟨?_, ?_⟩
      · intro hmem
        rcases List.mem_cons.mp hmem with h | h
        · exact ha.1 h.symm
        · exact hrest.1 h
      · intro hmem
        rcases List.mem_cons.mp hmem with h | h
        · exact ha.2 h.symm
        · exact hrest.2 h

lemma start_successor : ∀ b : GNode, isEdge GNode.START b = true →
    b = GNode.summarize_conversation_messages := by decide

lemma summarize_successor : ∀ b : GNode,
    isEdge GNode.summarize_conversation_messages b = true →
    b = GNode.answer_user_query := by decide

/-- C1: for every model turn produced by the ANSWER node (the latest message
of the state), the conditional router sends execution to TOOLS iff that
message carries at least one tool-call request and to END otherwise, and the
decision is a pure function of that single signal: any two states whose
latest messages agree on the signal are routed identically. -/
theorem c1_answer_routing_pure (messages : List AgentMessage) (m : AgentMessage)
    (hlast : messages.getLast? = some m) :
    (answerRouting messages = some GNode.tools ↔ 0 < m.tool_calls.length) ∧
    (answerRouting messages = some GNode.END ↔ m.tool_calls.length = 0) ∧
    (∀ (messages2 : List AgentMessage) (m2 : AgentMessage),
      messages2.getLast? = some m2 →
      (0 < m.tool_calls.length ↔ 0 < m2.tool_calls.length) →
      answerRouting messages2 = answerRouting messages) := by
  by_cases h : 0 < m.tool_calls.length
  · have hr : answerRouting messages = some GNode.tools := by
      simp [answerRouting, tools_condition, hlast, h]
    refine ⟨⟨fun _ => h, fun _ => hr⟩,
      ⟨fun he => by rw [hr] at he; simp at he, fun hz => absurd hz (by omega)⟩, ?_⟩
    intro messages2 m2 hlast2 hsig
    have h2 : 0 < m2.tool_calls.length := hsig.mp h
    simp [answerRouting, tools_condition, hlast, hlast2, h, h2]
  · have hr : answerRouting messages = some GNode.END := by
      simp [answerRouting, tools_condition, hlast, h]
    refine ⟨⟨fun he => by rw [hr] at he; simp at he, fun hp => absurd hp h⟩,
      ⟨fun _ => by omega, fun _ => hr⟩, ?_⟩
    intro messages2 m2 hlast2 hsig
    have h2 : ¬ 0 < m2.tool_calls.length := fun hc => h (hsig.mpr hc)
    simp [answerRouting, tools_condition, hlast, hlast2, h, h2]

/-- C1 witness: a concrete state whose latest message carries one tool call
routes to TOOLS, and the iff characterization holds there. -/
theorem c1_witness :
    ([⟨"", [⟨"execute_sql", "SELECT 1"⟩]⟩] : List AgentMessage).getLast? =
        some ⟨"", [⟨"execute_sql", "SELECT 1"⟩]⟩ ∧
    (answerRouting [⟨"", [⟨"execute_sql", "SELECT 1"⟩]⟩] = some GNode.tools ↔
        0 < ([⟨"execute_sql", "SELECT 1"⟩] : List ToolCall).length) :=
  ⟨rfl, (c1_answer_routing_pure [⟨"", [⟨"execute_sql", "SELECT 1"⟩]⟩]
    ⟨"", [⟨"execute_sql", "SELECT 1"⟩]⟩ rfl).1⟩

/-- C2: in the compiled graph, TOOLS has exactly one outgoing edge, which
leads to ANSWER, and no edge from TOOLS to END exists. -/
theorem c2_tools_single_outgoing_edge :
    graphEdges.filter (fun e => e.1 == GNode.tools) =
      [(GNode.tools, GNode.answer_user_query)] ∧
    (GNode.tools, GNode.END) ∉ graphEdges := by decide

/-- C3: every execution of the graph from START to END begins
START, SUMMARIZE, ANSWER, and the summarize node never occurs again after
that first ANSWER turn; in particular SUMMARIZE runs exactly once. -/
theorem c3_summarize_exactly_once (p : List GNode) (hexec : isExecution p) :
    (∃ rest, p = GNode.START :: GNode.summarize_conversation_messages ::
        GNode.answer_user_query :: rest ∧
      GNode.summarize_conversation_messages ∉ rest) ∧
    p.count GNode.summarize_conversation_messages = 1 := by
  obtain ⟨hchain, hhead, hlast⟩ := hexec
  cases p with
  | nil => simp at hhead
  | cons a t =>
    have ha : a = GNode.START := by
      simp only [List.head?] at hhead
      exact Option.some_inj.mp hhead
    subst ha
    cases t with
    | nil => simp at hlast
    | cons b t2 =>
      have hb : b = GNode.summarize_conversation_messages :=
        start_successor b (chainOk_cons_cons hchain)
      subst hb
      have hchain2 := chainOk_tail hchain
      cases t2 with
      | nil => simp at hlast
      | cons c t3 =>
        have hc : c = GNode.answer_user_query :=
          summarize_successor c (chainOk_cons_cons hchain2)
        subst hc
        have hchain3 := chainOk_tail hchain2
        have hrest := no_summarize_on_path (GNode.answer_user_query :: t3) hchain3
          (by
            intro x hx
            simp only [List.head?] at hx
            cases hx
            exact ⟨by simp, by simp⟩)
        have hnot3 : GNode.summarize_conversation_messages ∉ t3 := by
          intro hmem
          exact hrest.2 (List.mem_cons_of_mem _ hmem)
        refine ⟨⟨t3, rfl, hnot3⟩, ?_⟩
        have hzero : t3.count GNode.summarize_conversation_messages = 0 :=
          List.count_eq_zero.mpr hnot3
        simp [List.count_cons, hzero]

/-- C3 witness: the minimal execution START, SUMMARIZE, ANSWER, END
satisfies the conclusion of the theorem. -/
theorem c3_witness :
    isExecution [GNode.START, GNode.summarize_conversation_messages,
      GNode.answer_user_query, GNode.END] ∧
    ((∃ rest, [GNode.START, GNode.summarize_conversation_messages,
        GNode.answer_user_query, GNode.END] =
        GNode.START :: GNode.summarize_conversation_messages ::
          GNode.answer_user_query :: rest ∧
      GNode.summarize_conversation_messages ∉ rest) ∧
    ([GNode.START, GNode.summarize_conversation_messages,
      GNode.answer_user_query, GNode.END]).count
        GNode.summarize_conversation_messages = 1) :=
  ⟨⟨rfl, rfl, rfl⟩, c3_summarize_exactly_once _ ⟨rfl, rfl, rfl⟩⟩

/-! ## Conversation Summarizer (state.py schemas; contract from prompts.py
and the design document — the node implementation `BankingNode` lives in
nodes.py, which is not among the sources, so its validation and
normalization behaviour is modelled from the spec). -/

/-- The `sender_type` enum of the `Message` schema:
`Literal["customer", "ai", "human"]` (state.py line 10). -/
inductive SenderType where
  | customer
  | ai
  | human
  deriving DecidableEq, Repr

/-- The `Message` pydantic model (state.py lines 8-12). -/
structure Message where
  timestamp : String
  sender_type : SenderType
  content : String
  deriving DecidableEq, Repr

/-- A raw conversation record: a heterogeneous dict with possibly-missing
fields; only the fields the Summarizer contract consumes are modelled. -/
structure RawRecord where
  created_at : Option String
  timestamp : Option String
  sender_type : Option String
  content : String
  deriving DecidableEq, Repr

/-- A candidate output record produced by the model, before validation
against the `Message` schema: every field is still an untyped string. -/
structure CandidateMessage where
  timestamp : String
  sender_type : String
  content : String
  deriving DecidableEq, Repr

/-- Validation of a candidate `sender_type` string against the `Message`
schema field `Literal["customer", "ai", "human"]` (state.py line 10). -/
def parseSenderType : String → Option SenderType
  | "customer" => some SenderType.customer
  | "ai" => some SenderType.ai
  | "human" => some SenderType.human
  | _ => none

/-- Validation of one candidate record against the `Message` schema. -/
def parseMessage (c : CandidateMessage) : Option Message :=
  (parseSenderType c.sender_type).map fun st => ⟨c.timestamp, st, c.content⟩

/-- Validation of a whole candidate list against `SummarizedMessages`
(state.py lines 14-15): all records must validate, else the whole list is
rejected. -/
def parseMessages : List CandidateMessage → Option (List Message)
  | [] => some []
  | c :: rest =>
    match parseMessage c, parseMessages rest with
    | some m, some ms => some (m :: ms)
    | _, _ => none

/-- Modelled from the spec: the fail-closed acceptance, by the Summarizer, of a
candidate output (the node `BankingNode.summarize_conversation_messages` in
nodes.py is not among the sources). A candidate whose message count differs
from the input count, or whose shape does not validate against the
`Message` schema, is rejected whole; otherwise the validated messages are
accepted. -/
def validateSummary (raw : List RawRecord) (cand : List CandidateMessage) :
    Except String (List Message) :=
  if cand.length = raw.length then
    match parseMessages cand with
    | some out => Except.ok out
    | none => Except.error "candidate does not validate against the Message schema"
  else Except.error "message count mismatch"

/-- Whether a Summarizer outcome is a rejection. -/
def isRejected {α : Type} : Except String α → Bool
  | Except.error _ => true
  | Except.ok _ => false

lemma parseMessages_length :
    ∀ (cand : List CandidateMessage) (out : List Message),
      parseMessages cand = some out → out.length = cand.length := by
  intro cand
  induction cand with
  | nil => intro out h; simp only [parseMessages, Option.some_inj] at h; simp [← h]
  | cons c rest ih =>
    intro out h
    simp only [parseMessages] at h
    cases hm : parseMessage c with
    | none => rw [hm] at h; simp at h
    | some m =>
      cases hrest : parseMessages rest with
      | none => rw [hm, hrest] at h; simp at h
      | some ms =>
        rw [hm, hrest] at h
        simp only [Option.some_inj] at h
        subst h
        simp [ih ms hrest]

lemma parseMessages_none_of_bad :
    ∀ (cand : List CandidateMessage), (∃ c ∈ cand, parseMessage c = none) →
      parseMessages cand = none := by
  intro cand
  induction cand with
  | nil => intro h; rcases h with ⟨c, hc, _⟩; simp at hc
  | cons a rest ih =>
    intro h
    rcases h with ⟨c, hc, hbad⟩
    rcases List.mem_cons.mp hc with heq | hmem
    · subst heq
      simp [parseMessages, hbad]
    · simp only [parseMessages]
      rw [ih ⟨c, hmem, hbad⟩]
      cases parseMessage a <;> rfl

/-- C4: the Summarizer yields exactly one output `Message` per input raw
record — an accepted output always has the length of the input — and it fails
closed: a candidate with a different message count, or containing a record
that does not validate against the `Message` schema, is rejected whole. -/
theorem c4_summary_count_fail_closed
    (raw : List RawRecord) (cand : List CandidateMessage) :
    (∀ out, validateSummary raw cand = Except.ok out → out.length = raw.length) ∧
    (cand.length ≠ raw.length → isRejected (validateSummary raw cand) = true) ∧
    ((∃ c ∈ cand, parseMessage c = none) →
      isRejected (validateSummary raw cand) = true) := by
  refine ⟨?_, ?_, ?_⟩
  · intro out hok
    unfold validateSummary at hok
    by_cases hlen : cand.length = raw.length
    · rw [if_pos hlen] at hok
      cases hp : parseMessages cand with
      | none => rw [hp] at hok; simp at hok
      | some ms =>
        rw [hp] at hok
        simp only [Except.ok.injEq] at hok
        subst hok
        exact (parseMessages_length cand ms hp).trans hlen
    · rw [if_neg hlen] at hok; simp at hok
  · intro hlen
    unfold validateSummary
    rw [if_neg hlen]
    rfl
  · intro hbad
    unfold validateSummary
    by_cases hlen : cand.length = raw.length
    · rw [if_pos hlen, parseMessages_none_of_bad cand hbad]
      rfl
    · rw [if_neg hlen]
      rfl

/-- C4 witness: a candidate with two messages for a one-record input is
rejected, and an invalid sender_type is rejected. -/
theorem c4_witness :
    (([⟨"t", "bot", "x"⟩] : List CandidateMessage).length ≠
      ([⟨none, none, none, "x"⟩, ⟨none, none, none, "y"⟩] : List RawRecord).length ∧
      isRejected (validateSummary [⟨none, none, none, "x"⟩, ⟨none, none, none, "y"⟩]
        [⟨"t", "bot", "x"⟩]) = true) :=
  ⟨by decide,
    (c4_summary_count_fail_closed [⟨none, none, none, "x"⟩, ⟨none, none, none, "y"⟩]
      [⟨"t", "bot", "x"⟩]).2.1 (by decide)⟩

/-- Removal of leading and trailing whitespace characters (and nothing
else) from a character sequence. -/
def trimChars (s : List Char) : List Char :=
  ((s.dropWhile Char.isWhitespace).reverse.dropWhile Char.isWhitespace).reverse

/-- Modelled from the spec: the per-record content
normalization (the node implementation in nodes.py is not among the
sources); the rule is stated in MESSAGE_SUMMARY_PROMPT (prompts.py lines
28-29): content of length ≤ 500 characters is kept exactly, trimmed of
leading/trailing whitespace only; longer content is compressed by the
model, abstracted here as the parameter `summarizeLong`. -/
def normalizeContent (summarizeLong : List Char → List Char)
    (content : List Char) : List Char :=
  if content.length ≤ 500 then trimChars content else summarizeLong content

lemma trimChars_decomposition (c : List Char) :
    c = c.takeWhile Char.isWhitespace ++ trimChars c ++
      ((c.dropWhile Char.isWhitespace).reverse.takeWhile Char.isWhitespace).reverse := by
  unfold trimChars
  conv_lhs => rw [← List.takeWhile_append_dropWhile Char.isWhitespace (l := c)]
  rw [List.append_assoc]
  congr 1
  rw [← List.reverse_append,
    List.takeWhile_append_dropWhile Char.isWhitespace
      (l := (c.dropWhile Char.isWhitespace).reverse),
    List.reverse_reverse]

/-- C5: for content of length at most 500, the normalized output is the
input trimmed of leading and trailing whitespace only: the input is the
output surrounded by (possibly empty) all-whitespace margins, and the
output is otherwise byte-for-byte the input. -/
theorem c5_short_content_trimmed (summarizeLong : List Char → List Char)
    (c : List Char) (hlen : c.length ≤ 500) :
    normalizeContent summarizeLong c = trimChars c ∧
    ∃ pre post, c = pre ++ normalizeContent summarizeLong c ++ post ∧
      (∀ ch ∈ pre, ch.isWhitespace) ∧ (∀ ch ∈ post, ch.isWhitespace) := by
  have hnorm : normalizeContent summarizeLong c = trimChars c := by
    simp [normalizeContent, hlen]
  refine ⟨hnorm, c.takeWhile Char.isWhitespace,
    ((c.dropWhile Char.isWhitespace).reverse.takeWhile Char.isWhitespace).reverse,
    ?_, ?_, ?_⟩
  · rw [hnorm]
    exact trimChars_decomposition c
  · intro ch hch
    exact List.mem_takeWhile_imp hch
  · intro ch hch
    exact List.mem_takeWhile_imp (List.mem_reverse.mp hch)

/-- C5 witness: a concrete short message is kept byte-for-byte apart from
its leading/trailing whitespace. -/
theorem c5_witness :
    ("  Hi, what is my balance? ".data.length ≤ 500 ∧
      normalizeContent id "  Hi, what is my balance? ".data =
        trimChars "  Hi, what is my balance? ".data) ∧
    trimChars "  Hi, what is my balance? ".data = "Hi, what is my balance?".data :=
  ⟨⟨by decide,
    (c5_short_content_trimmed id "  Hi, what is my balance? ".data (by decide)).1⟩,
    by decide⟩

/-- Modelled from the spec: the sender_type normalization of the Summarizer
(nodes.py is not among the sources); the rule is stated in
MESSAGE_SUMMARY_PROMPT (prompts.py lines 24-27): source category "ai" maps
to ai, "customer" maps to customer, and a missing or unrecognized category
defaults to the catch-all "human". -/
def normalizeSenderType : Option String → SenderType
  | some "ai" => SenderType.ai
  | some "customer" => SenderType.customer
  | _ => SenderType.human

/-- C6: the two explicit source categories map one-to-one to their matching
output categories, and every missing or unrecognized source category maps
to the catch-all category "human". -/
theorem c6_sender_type_normalization :
    normalizeSenderType (some "customer") = SenderType.customer ∧
    normalizeSenderType (some "ai") = SenderType.ai ∧
    normalizeSenderType none = SenderType.human ∧
    (∀ s : String, s ≠ "customer" → s ≠ "ai" →
      normalizeSenderType (some s) = SenderType.human) := by
  refine ⟨rfl, rfl, rfl, ?_⟩
  intro s hcust hai
  unfold normalizeSenderType
  split
  · rename_i h
    injection h with h
    exact absurd h hai
  · rename_i h
    injection h with h
    exact absurd h hcust
  · rfl

/-- C6 witness: a concrete unrecognized category maps to "human". -/
theorem c6_witness :
    ("bot" : String) ≠ "customer" ∧ ("bot" : String) ≠ "ai" ∧
    normalizeSenderType (some "bot") = SenderType.human :=
  ⟨by decide, by decide,
    c6_sender_type_normalization.2.2.2 "bot" (by decide) (by decide)⟩

/-! ## Tool Gateway (contract from EXECUTE_QUERY_PROMPT in prompts.py and
the design document; the gateway implementation `mcp_supabase` is not among
the sources, so its policy checks are modelled from the spec). -/

/-- Check `startsWithChars needle hay`: the character sequence `hay` begins with
`needle`. -/
def startsWithChars : List Char → List Char → Bool
  | [], _ => true
  | _ :: _, [] => false
  | n :: ns, h :: hs => n == h && startsWithChars ns hs

/-- Check `hasSubstring needle hay`: `needle` occurs contiguously inside `hay`. -/
def hasSubstring (needle hay : List Char) : Bool :=
  (List.range (hay.length + 1)).any fun i => startsWithChars needle (hay.drop i)

/-- The data-mutating SQL keywords named by the policy (prompts.py line 58
and the design document): INSERT, UPDATE, DELETE, DROP, ALTER. -/
def MUTATING_KEYWORDS : List (List Char) :=
  ["INSERT".data, "UPDATE".data, "DELETE".data, "DROP".data, "ALTER".data]

/-- Whether a query string contains a data-mutating keyword,
case-insensitively. -/
def containsMutatingKeyword (sql : List Char) : Bool :=
  MUTATING_KEYWORDS.any fun kw => hasSubstring kw (sql.map Char.toUpper)

/-- Result of `execute_sql`: an ordered sequence of result rows or a
structured error. -/
inductive SqlResult where
  | rows (rs : List (List String))
  | error (msg : String)
  deriving DecidableEq, Repr

/-- Modelled from the spec: the `execute_sql` capability of the Tool Gateway
(the gateway implementation is not among the sources). It is parametrized
by the backing data source `runQuery`; a request containing a mutating
keyword is rejected with a structured error before the data source is
consulted. -/
def execute_sql (runQuery : List Char → List (List String))
    (sql : List Char) : SqlResult :=
  if containsMutatingKeyword sql then
    SqlResult.error "mutating SQL operations are not allowed"
  else SqlResult.rows (runQuery sql)

/-- C7: every execute_sql request containing a mutating keyword is rejected
with a structured error, and the outcome is independent of the backing data
source — no execution against it occurs. -/
theorem c7_mutating_sql_rejected
    (run1 run2 : List Char → List (List String)) (sql : List Char)
    (h : containsMutatingKeyword sql = true) :
    execute_sql run1 sql = SqlResult.error "mutating SQL operations are not allowed" ∧
    execute_sql run1 sql = execute_sql run2 sql := by
  constructor <;> simp [execute_sql, h]

/-- C7 witness: a concrete DELETE statement is rejected regardless of the
data source. -/
theorem c7_witness :
    containsMutatingKeyword "delete from accounts".data = true ∧
    execute_sql (fun _ => []) "delete from accounts".data =
      SqlResult.error "mutating SQL operations are not allowed" :=
  ⟨by decide,
    (c7_mutating_sql_rejected (fun _ => []) (fun _ => [["1"]])
      "delete from accounts".data (by decide)).1⟩

/-- Classification of an execute_sql request within one turn sequence, in
the terms of the Tool Gateway policy of the design document (prompts.py lines
61-62): a customer-scoped identifier-resolution query (accounts filtered by
customer_id), a dependent-relation query (transactions, flagged with
whether it filters the dependent relation directly by customer_id), or any
other query. -/
inductive QueryKind where
  | customerScopedResolution
  | dependentRelation (byCustomerId : Bool)
  | other
  deriving DecidableEq, Repr

/-- Whether a turn sequence prefix contains a customer-scoped
identifier-resolution query. -/
def resolvedIn (prior : List QueryKind) : Bool :=
  prior.contains QueryKind.customerScopedResolution

/-- Modelled from the spec: the per-query admission decision of the Tool Gateway
for a query arriving after the queries `prior` of the same turn sequence
(the gateway implementation is not among the sources). A dependent-relation
query filtering directly by customer_id is never executed; one filtering by
the resolved identifier set is admitted only when a customer-scoped
resolution query precedes it in the same turn sequence. -/
def gatewayAccepts (prior : List QueryKind) : QueryKind → Bool
  | QueryKind.customerScopedResolution => true
  | QueryKind.dependentRelation byCustomerId =>
      if byCustomerId then false else resolvedIn prior
  | QueryKind.other => true

/-- C8: a dependent-relation query not preceded in the same turn sequence
by a customer-scoped identifier-resolution query is rejected, and direct
filtering of the dependent relation by customer_id is never executed,
whatever precedes it. -/
theorem c8_dependent_relation_sequencing (prior : List QueryKind) :
    (resolvedIn prior = false →
      gatewayAccepts prior (QueryKind.dependentRelation false) = false) ∧
    gatewayAccepts prior (QueryKind.dependentRelation true) = false := by
  constructor
  · intro h
    simp [gatewayAccepts, h]
  · simp [gatewayAccepts]

/-- C8 witness: with no prior resolution query, a transactions lookup is
rejected; a direct customer_id filter is rejected even after one. -/
theorem c8_witness :
    resolvedIn [QueryKind.other] = false ∧
    gatewayAccepts [QueryKind.other] (QueryKind.dependentRelation false) = false ∧
    gatewayAccepts [QueryKind.customerScopedResolution]
      (QueryKind.dependentRelation true) = false :=
  ⟨by decide,
    (c8_dependent_relation_sequencing [QueryKind.other]).1 (by decide),
    (c8_dependent_relation_sequencing [QueryKind.customerScopedResolution]).2⟩

/-- A tool message produced by the TOOLS node: content plus whether it
reports an execution failure. -/
structure ToolMessage where
  content : String
  is_error : Bool
  deriving DecidableEq, Repr

/-- The LangGraph `ToolNode` as constructed in build_graph (graphbuilder.py
line 26) with `handle_tool_errors=True`: each tool call of the batch is
executed against the executor `exec`; a failure is caught and converted
into a structured error message using the default library template, so
the node returns one message per call and never raises. -/
def toolNodeRun (exec : ToolCall → Except String String)
    (calls : List ToolCall) : List ToolMessage :=
  calls.map fun c =>
    match exec c with
    | Except.ok r => ⟨r, false⟩
    | Except.error e => ⟨"Error: " ++ e ++ "\n Please fix your mistakes.", true⟩

/-- C9: every tool failure inside the TOOLS node becomes a structured error
message in the node output — the node returns one message per call and
never aborts — and the only edge out of TOOLS leads back to ANSWER, so
those results are consumed by the next model turn. -/
theorem c9_tool_errors_structured (exec : ToolCall → Except String String)
    (calls : List ToolCall) :
    (toolNodeRun exec calls).length = calls.length ∧
    (∀ (i : Nat) (e : String) (h : i < calls.length),
      exec (calls.get ⟨i, h⟩) = Except.error e →
      (toolNodeRun exec calls)[i]? =
        some ⟨"Error: " ++ e ++ "\n Please fix your mistakes.", true⟩) ∧
    graphEdges.filter (fun x => x.1 == GNode.tools) =
      [(GNode.tools, GNode.answer_user_query)] := by
  refine ⟨by simp [toolNodeRun], ?_, by decide⟩
  intro i e h hfail
  have hget : calls[i]? = some (calls.get ⟨i, h⟩) := List.getElem?_eq_getElem h
  have hfail2 : exec calls[i] = Except.error e := hfail
  simp [toolNodeRun, List.getElem?_map, hget, hfail2]

/-- C9 witness: a failing execute_sql call yields a structured error
message at its position in the batch result. -/
theorem c9_witness :
    ((fun _ => Except.error "relation does not exist" :
        ToolCall → Except String String)
      (([⟨"execute_sql", "SELECT 1"⟩] : List ToolCall).get ⟨0, by decide⟩) =
        Except.error "relation does not exist") ∧
    (toolNodeRun (fun _ => Except.error "relation does not exist")
        [⟨"execute_sql", "SELECT 1"⟩])[0]? =
      some ⟨"Error: " ++ "relation does not exist" ++ "\n Please fix your mistakes.",
        true⟩ :=
  ⟨rfl,
    (c9_tool_errors_structured (fun _ => Except.error "relation does not exist")
      [⟨"execute_sql", "SELECT 1"⟩]).2.1 0 "relation does not exist"
      (by decide) rfl⟩

/-! ## Chat routes (backend/app/routes/chat.py). -/

/-- The `sender_type` of `SendMessageRequest`:
`Literal["customer", "agent"]` (chat.py line 19). -/
inductive RouteSenderType where
  | customer
  | agent
  deriving DecidableEq, Repr

/-- The `SendMessageRequest` body model (chat.py lines 17-23). -/
structure SendMessageRequest where
  conversation_id : String
  sender_type : RouteSenderType
  sender_customer_id : Option String
  sender_agent_id : Option String
  content : String
  is_internal : Bool
  deriving DecidableEq, Repr

/-- A row of the messages table: the payload inserted by `send_message`
(chat.py lines 77-84). -/
structure MessageRow where
  conversation_id : String
  sender_type : RouteSenderType
  sender_customer_id : Option String
  sender_agent_id : Option String
  content : String
  is_internal : Bool
  deriving DecidableEq, Repr

/-- Python truthiness of an optional string field: `not x` holds when the
field is None or the empty string. -/
def optStrFalsy : Option String → Bool
  | none => true
  | some s => s == ""

/-- An HTTP error as raised by `HTTPException(status, detail)`. -/
structure HttpError where
  status : Nat
  detail : String
  deriving DecidableEq, Repr

/-- The sender-field validation of `send_message` (chat.py lines 68-75),
performed before the insert: a customer message must carry a (truthy)
sender_customer_id, no sender_agent_id, and must not be internal; an agent
message must carry a (truthy) sender_agent_id and no sender_customer_id. -/
def validate_sender (body : SendMessageRequest) : Option HttpError :=
  match body.sender_type with
  | RouteSenderType.customer =>
    if optStrFalsy body.sender_customer_id || body.sender_agent_id.isSome then
      some ⟨400, "customer message requires sender_customer_id only"⟩
    else if body.is_internal then
      some ⟨400, "customers cannot send internal messages"⟩
    else none
  | RouteSenderType.agent =>
    if optStrFalsy body.sender_agent_id || body.sender_customer_id.isSome then
      some ⟨400, "agent message requires sender_agent_id only"⟩
    else none

/-- The handler `send_message` (chat.py lines 66-89) over an explicit message store:
validation runs first and a failure raises before any write; on success the
payload row is appended to the store and returned. -/
def send_message (store : List MessageRow) (body : SendMessageRequest) :
    Except HttpError (MessageRow × List MessageRow) :=
  match validate_sender body with
  | some e => Except.error e
  | none =>
    let row : MessageRow := ⟨body.conversation_id, body.sender_type,
      body.sender_customer_id, body.sender_agent_id, body.content,
      body.is_internal⟩
    Except.ok (row, store ++ [row])

/-- The message store after a `send_message` call: unchanged when the call
raises. -/
def storeAfter (store : List MessageRow) (body : SendMessageRequest) :
    List MessageRow :=
  match send_message store body with
  | Except.ok (_, store2) => store2
  | Except.error _ => store

lemma send_message_of_invalid (store : List MessageRow)
    (body : SendMessageRequest) (e : HttpError)
    (h : validate_sender body = some e) :
    send_message store body = Except.error e ∧ storeAfter store body = store := by
  have hs : send_message store body = Except.error e := by
    unfold send_message
    rw [h]
  exact ⟨hs, by unfold storeAfter; rw [hs]⟩

lemma validate_sender_customer_not_internal (body : SendMessageRequest)
    (hv : validate_sender body = none)
    (hst : body.sender_type = RouteSenderType.customer) :
    body.is_internal = false := by
  unfold validate_sender at hv
  split at hv
  · split at hv
    · simp at hv
    · split at hv
      · simp at hv
      · rename_i hint
        simpa using hint
  · rename_i heq
    rw [hst] at heq
    exact absurd heq (by decide)

lemma validate_sender_status (body : SendMessageRequest) (e : HttpError)
    (h : validate_sender body = some e) : e.status = 400 := by
  unfold validate_sender at h
  split at h
  · split at h
    · cases Option.some_inj.mp h; rfl
    · split at h
      · cases Option.some_inj.mp h; rfl
      · simp at h
  · split at h
    · cases Option.some_inj.mp h; rfl
    · simp at h

/-- C10: `send_message` rejects with HTTP 400, before any write and leaving
the message store unchanged, every request whose sender fields are
inconsistent with its sender_type — a customer request without a
sender_customer_id, with a sender_agent_id, or marked internal, and an
agent request without a sender_agent_id or with a sender_customer_id — and
consequently a stored customer message is never internal. -/
theorem c10_send_message_validation (store : List MessageRow)
    (body : SendMessageRequest) :
    (((body.sender_type = RouteSenderType.customer ∧
        (body.sender_customer_id = none ∨ body.sender_agent_id ≠ none ∨
          body.is_internal = true)) ∨
      (body.sender_type = RouteSenderType.agent ∧
        (body.sender_agent_id = none ∨ body.sender_customer_id ≠ none))) →
      (∃ d, send_message store body = Except.error ⟨400, d⟩) ∧
        storeAfter store body = store) ∧
    (∀ row store2, send_message store body = Except.ok (row, store2) →
      body.sender_type = RouteSenderType.customer → row.is_internal = false) := by
  constructor
  · intro hcond
    have hval : ∃ e, validate_sender body = some e := by
      rcases hcond with ⟨hst, hc⟩ | ⟨hst, hc⟩
      · unfold validate_sender
        rw [hst]
        rcases hc with hnone | hagent | hint
        · simp [hnone, optStrFalsy]
        · have : body.sender_agent_id.isSome = true := by
            cases hsa : body.sender_agent_id with
            | none => exact absurd hsa hagent
            | some v => rfl
          simp [this]
        · by_cases hfirst : optStrFalsy body.sender_customer_id ||
            body.sender_agent_id.isSome
          · simp [hfirst]
          · simp [hfirst, hint]
      · unfold validate_sender
        rw [hst]
        rcases hc with hnone | hcust
        · simp [hnone, optStrFalsy]
        · have : body.sender_customer_id.isSome = true := by
            cases hsc : body.sender_customer_id with
            | none => exact absurd hsc hcust
            | some v => rfl
          simp [this]
    obtain ⟨e, he⟩ := hval
    have hstatus := validate_sender_status body e he
    have hsend := send_message_of_invalid store body e he
    refine ⟨⟨e.detail, ?_⟩, hsend.2⟩
    rw [hsend.1]
    congr 1
    cases e
    simp_all
  · intro row store2 hok hst
    unfold send_message at hok
    cases hv : validate_sender body with
    | some e => rw [hv] at hok; simp at hok
    | none =>
      rw [hv] at hok
      simp only [Except.ok.injEq, Prod.mk.injEq] at hok
      have hrow : row = (⟨body.conversation_id, body.sender_type,
          body.sender_customer_id, body.sender_agent_id, body.content,
          body.is_internal⟩ : MessageRow) := hok.1.symm
      rw [hrow]
      simpa using validate_sender_customer_not_internal body hv hst

/-- C10 witness: a customer request marked internal is rejected with 400
and leaves the store unchanged. -/
theorem c10_witness :
    ((⟨"conv1", RouteSenderType.customer, some "cust1", none, "hello", true⟩ :
        SendMessageRequest).sender_type = RouteSenderType.customer ∧
      ((⟨"conv1", RouteSenderType.customer, some "cust1", none, "hello", true⟩ :
        SendMessageRequest).is_internal = true)) ∧
    ((∃ d, send_message []
        ⟨"conv1", RouteSenderType.customer, some "cust1", none, "hello", true⟩ =
          Except.error ⟨400, d⟩) ∧
      storeAfter []
        ⟨"conv1", RouteSenderType.customer, some "cust1", none, "hello", true⟩ = []) :=
  ⟨⟨rfl, rfl⟩,
    (c10_send_message_validation []
      ⟨"conv1", RouteSenderType.customer, some "cust1", none, "hello", true⟩).1
      (Or.inl ⟨rfl, Or.inr (Or.inr rfl)⟩)⟩

end Majlis
